import Mathlib

/-!
Shallow embedding of the AI-Resume-Scanner repository (Python) in Lean 4.

The embedding follows the source files:
  src/utils/text_processing.py   (TextProcessor)
  src/models/job_matcher.py      (JobMatcher)
  src/models/scoring_engine.py   (ScoringEngine)
  src/models/resume_parser.py    (ResumeParserModel)

Python floats are modelled as exact rationals (ℚ); Python strings as Lean
Strings, processed character by character.  External NLP dependencies (NLTK
tokenizers, the NLTK stopword corpus and lemmatizer, spaCy's entity
recognizer, and sklearn's TF-IDF vectorizer) are not part of this repository;
they are modelled as explicit function parameters gathered in `NLPEnv`, while
everything the repository itself computes is embedded concretely.
-/

namespace ResumeScanner

/-! ### Character-level utilities (src/utils/text_processing.py) -/

/-- The character class `\s` of Python's `re` module, restricted to ASCII:
space, tab, newline, vertical tab, form feed, carriage return. -/
def isSpaceB (c : Char) : Bool :=
  c.toNat == 32 || c.toNat == 9 || c.toNat == 10 ||
  c.toNat == 11 || c.toNat == 12 || c.toNat == 13

/-- ASCII lower-casing of one character, the ASCII fragment of Python's
`str.lower()`. -/
def lowerChar (c : Char) : Char :=
  if 65 ≤ c.toNat ∧ c.toNat ≤ 90 then Char.ofNat (c.toNat + 32) else c

/-- ASCII lower-casing of a string (Python `str.lower()`). -/
def strLower (s : String) : String :=
  ⟨s.data.map lowerChar⟩

/-- One step of `re.sub(r'[^a-zA-Z\s]', ' ', text)`: a character that is
neither an ASCII letter nor whitespace is replaced by a space. -/
def replStep (c : Char) : Char :=
  if (97 ≤ c.toNat ∧ c.toNat ≤ 122) ∨ (65 ≤ c.toNat ∧ c.toNat ≤ 90) ∨ isSpaceB c = true
  then c else ' '

/-- `re.sub(r'\s+', ' ', text)`: every maximal run of whitespace becomes a
single space.  The flag records whether we are inside a whitespace run whose
replacement space has already been emitted. -/
def collapseAux : Bool → List Char → List Char
  | _, [] => []
  | inRun, c :: cs =>
    if isSpaceB c then
      if inRun then collapseAux true cs
      else ' ' :: collapseAux true cs
    else c :: collapseAux false cs

/-- Python `str.strip()`: drop leading and trailing whitespace. -/
def stripL (l : List Char) : List Char :=
  ((l.dropWhile isSpaceB).reverse.dropWhile isSpaceB).reverse

/-- The character pipeline of `TextProcessor.clean_text` applied to a list of
characters: lowercase, replace non-letters by spaces, collapse whitespace
runs, strip. -/
def cleanL (l : List Char) : List Char :=
  stripL (collapseAux false (l.map (fun c => replStep (lowerChar c))))

/-- `TextProcessor.clean_text` (src/utils/text_processing.py lines 47-61).
The guard `if not text: return ""` is the empty-string case. -/
def clean_text (s : String) : String :=
  if s = "" then "" else ⟨cleanL s.data⟩

/-- Word character for Python's `\b` word boundary: `[a-zA-Z0-9_]`. -/
def isWordChar (c : Char) : Bool :=
  (97 ≤ c.toNat && c.toNat ≤ 122) || (65 ≤ c.toNat && c.toNat ≤ 90) ||
  (48 ≤ c.toNat && c.toNat ≤ 57) || c.toNat == 95

/-- Whether an optional character counts as a word character; the ends of the
string count as non-word. -/
def optWord : Option Char → Bool
  | none => false
  | some c => isWordChar c

/-- Literal prefix test on character lists. -/
def startsWith : List Char → List Char → Bool
  | [], _ => true
  | _ :: _, [] => false
  | p :: ps, c :: cs => p == c && startsWith ps cs

/-- Does the escaped pattern `\b skill \b` match at the head of `text`, where
`prev` is the character immediately before this position (`none` at the start
of the string)?  A `\b` matches where exactly one of the two adjacent
characters is a word character. -/
def wbMatchHere (skill text : List Char) (prev : Option Char) : Bool :=
  startsWith skill text &&
  (optWord prev != optWord skill.head?) &&
  (optWord skill.getLast? != optWord (text.drop skill.length).head?)

/-- `re.search(r'\b' + re.escape(skill) + r'\b', text)`: search for a
word-boundary-delimited occurrence of the literal `skill` anywhere in
`text`. -/
def wbSearch (skill : List Char) : Option Char → List Char → Bool
  | prev, [] => wbMatchHere skill [] prev
  | prev, c :: cs => wbMatchHere skill (c :: cs) prev || wbSearch skill (some c) cs

/-- `TextProcessor.extract_skills` (src/utils/text_processing.py lines
96-111): keep the candidate skills that occur word-boundary-delimited in the
lower-cased text, and de-duplicate (`list(set(found_skills))`, modelled as
`List.dedup`, which keeps one copy of every distinct matched skill). -/
def extract_skills (skill_list : List String) (text : String) : List String :=
  ((skill_list.filter
    (fun skill => wbSearch (strLower skill).data none (strLower text).data))).dedup

/-! ### Configuration (src/config.py) -/

/-- `config.TECHNICAL_SKILLS`. -/
def TECHNICAL_SKILLS : List String :=
  ["python", "java", "javascript", "c++", "sql", "html", "css", "react",
   "node.js", "django", "flask", "spring", "mongodb", "postgresql",
   "machine learning", "data science", "tensorflow", "pytorch", "scikit-learn",
   "pandas", "numpy", "matplotlib", "seaborn", "tableau", "power bi",
   "aws", "azure", "docker", "kubernetes", "git", "jenkins"]

/-- `config.SOFT_SKILLS`. -/
def SOFT_SKILLS : List String :=
  ["leadership", "communication", "teamwork", "problem solving",
   "critical thinking", "time management", "adaptability", "creativity",
   "project management", "analytical thinking", "collaboration"]

/-- The default skill list of `extract_skills`:
`config.TECHNICAL_SKILLS + config.SOFT_SKILLS`. -/
def defaultSkillList : List String := TECHNICAL_SKILLS ++ SOFT_SKILLS

/-- Python's substring test `needle in haystack` on lists of characters. -/
def containsSub (needle : List Char) : List Char → Bool
  | [] => startsWith needle []
  | c :: cs => startsWith needle (c :: cs) || containsSub needle cs

/-! ### Entity extraction (src/utils/text_processing.py lines 75-94) -/

/-- The six entity labels of the dictionary initialised by
`extract_entities`. -/
def entityLabels : List String :=
  ["PERSON", "ORG", "DATE", "GPE", "MONEY", "PERCENT"]

/-- `TextProcessor.extract_entities`.  The spaCy pipeline `self.nlp` is
modelled as an optional function from a text to its labelled entities (label,
surface text); it is `none` when the model failed to load, in which case the
code returns the empty dictionary `{}`.  Otherwise the six-key dictionary is
built and each recognised entity whose label is one of the six keys is
appended, in order, to its label's list. -/
def extract_entities (nlp : Option (String → List (String × String)))
    (text : String) : List (String × List String) :=
  match nlp with
  | none => []
  | some f =>
    entityLabels.map (fun lab =>
      (lab, ((f text).filter (fun e => e.1 == lab)).map (fun e => e.2)))

/-! ### Rounding (Python built-in `round(x, 2)`) -/

/-- Python's `round` on a rational value: round half to even. -/
def roundHalfEven (q : ℚ) : ℤ :=
  if q - ⌊q⌋ < 1/2 then ⌊q⌋
  else if 1/2 < q - ⌊q⌋ then ⌊q⌋ + 1
  else if ⌊q⌋ % 2 = 0 then ⌊q⌋ else ⌊q⌋ + 1

/-- `round(x, 2)`: round to two decimal places. -/
def round2 (q : ℚ) : ℚ := (roundHalfEven (q * 100) : ℚ) / 100

/-! ### External NLP dependencies, gathered in one environment -/

/-- The parts of the pipeline supplied by libraries outside this repository
(NLTK, sklearn, and the regular-expression based year extractors whose
behaviour no claim depends on).  Each field stands for one call the source
makes into that machinery:

* `wordTokenize` — `nltk.tokenize.word_tokenize`;
* `sentTokenize` — `nltk.tokenize.sent_tokenize`;
* `stopWords` — `set(stopwords.words('english'))`;
* `lemmatizeWord` — `WordNetLemmatizer().lemmatize`;
* `tfidfCosine` — `tfidf_cosine_similarity` (sklearn TF-IDF + cosine), a
  value in `[0, 1]`;
* `tfidfFeatures` — the sklearn feature/score table used by
  `extract_important_keywords`;
* `extractExperienceYears` — `TextProcessor.extract_experience_years`
  (`re.findall` over the three experience patterns, maximum of the matches);
* `extractRequiredExperience` — `JobMatcher.extract_required_experience`
  (`re.findall` over the four requirement patterns, minimum of the matches).
-/
structure NLPEnv where
  wordTokenize : String → List String
  sentTokenize : String → List String
  stopWords : List String
  lemmatizeWord : String → String
  tfidfCosine : String → String → ℚ
  tfidfFeatures : String → List (String × ℚ)
  extractExperienceYears : String → Nat
  extractRequiredExperience : String → Nat

/-- `TextProcessor.remove_stopwords`: tokenize, drop the words whose
lower-casing is a stop word, rejoin with single spaces. -/
def remove_stopwords (env : NLPEnv) (text : String) : String :=
  String.intercalate " "
    ((env.wordTokenize text).filter (fun w => !(env.stopWords.contains (strLower w))))

/-- `TextProcessor.lemmatize_text`: tokenize, lemmatize each word, rejoin. -/
def lemmatize_text (env : NLPEnv) (text : String) : String :=
  String.intercalate " " ((env.wordTokenize text).map env.lemmatizeWord)

/-- `TextProcessor.preprocess_for_similarity`: clean, remove stopwords,
lemmatize. -/
def preprocess_for_similarity (env : NLPEnv) (text : String) : String :=
  lemmatize_text env (remove_stopwords env (clean_text text))

/-! ### Stable descending sort (Python `list.sort(key=..., reverse=True)`) -/

/-- Insert `x` into `l`, passing over exactly the elements whose key is
strictly greater; an element already in the list with an equal key therefore
stays in front of `x`, which is what Python's stable sort guarantees for the
element arriving later. -/
def insertByDesc (key : α → ℚ) (x : α) : List α → List α
  | [] => [x]
  | y :: ys => if key x < key y then y :: insertByDesc key x ys else x :: y :: ys

/-- Stable descending insertion sort by a rational key, the model of
`list.sort(key=lambda e: key(e), reverse=True)`. -/
def sortByDesc (key : α → ℚ) : List α → List α
  | [] => []
  | x :: xs => insertByDesc key x (sortByDesc key xs)

/-! ### Job matching (src/models/job_matcher.py) -/

/-- The dictionary returned by `JobMatcher.calculate_similarity_score`. -/
structure SimilarityResult where
  overall_score : ℚ
  method_scores : List (String × ℚ)
deriving DecidableEq

/-- `JobMatcher.extract_important_keywords` (lines 139-161): preprocess; if
empty, no keywords; otherwise take the sklearn TF-IDF feature table, sort it
by score descending, keep the first `num` names whose score is positive. -/
def extract_important_keywords (env : NLPEnv) (text : String) (num : Nat) :
    List String :=
  let processed := preprocess_for_similarity env text
  if processed = "" then []
  else
    (((sortByDesc (fun p => p.2) (env.tfidfFeatures processed)).take num).filter
      (fun p => 0 < p.2)).map (fun p => p.1)

/-- `JobMatcher.keyword_matching_score` (lines 69-89): the fraction of the
job's important keywords whose lower-casing occurs as a substring of the
lower-cased resume. -/
def keyword_matching_score (env : NLPEnv) (resume_text job_description : String) : ℚ :=
  let job_keywords := extract_important_keywords env job_description 20
  if job_keywords = [] then 0
  else
    ((job_keywords.countP
        (fun kw => containsSub (strLower kw).data (strLower resume_text).data)) : ℚ) /
      job_keywords.length

/-- `JobMatcher.skills_matching_score` (lines 91-115): Jaccard similarity of
the two lower-cased skill sets, mixed 40/60 with the fraction of job skills
found in the resume. -/
def skills_matching_score (resume_text job_description : String) : ℚ :=
  let resume_skills : Finset String :=
    ((extract_skills defaultSkillList resume_text).map strLower).toFinset
  let job_skills : Finset String :=
    ((extract_skills defaultSkillList job_description).map strLower).toFinset
  if job_skills = ∅ then 0
  else
    let inter := (resume_skills ∩ job_skills).card
    let uni := (resume_skills ∪ job_skills).card
    let jaccard_score : ℚ := if 0 < uni then (inter : ℚ) / uni else 0
    let job_skills_found : ℚ :=
      if job_skills = ∅ then 0 else (inter : ℚ) / job_skills.card
    jaccard_score * 0.4 + job_skills_found * 0.6

/-- The tier logic of `JobMatcher.experience_matching_score` (lines 123-133),
as a function of the two extracted year counts. -/
def experience_matching_core (resume_exp job_exp : Nat) : ℚ :=
  if job_exp = 0 then 1
  else if resume_exp ≥ job_exp then 1
  else if (resume_exp : ℚ) ≥ (job_exp : ℚ) * 0.7 then 0.8
  else if (resume_exp : ℚ) ≥ (job_exp : ℚ) * 0.5 then 0.6
  else (resume_exp : ℚ) / (job_exp : ℚ)

/-- `JobMatcher.experience_matching_score` (lines 117-137). -/
def experience_matching_score (env : NLPEnv) (resume_text job_description : String) : ℚ :=
  experience_matching_core (env.extractExperienceYears resume_text)
    (env.extractRequiredExperience job_description)

/-- `JobMatcher.calculate_similarity_score` (lines 20-56).  If either
preprocessed text is empty the result short-circuits to overall 0 with the
(still empty) method-score dictionary; otherwise the four method scores are
computed, weighted 0.4/0.2/0.3/0.1, and converted to percentages rounded to
two decimals. -/
def calculate_similarity_score (env : NLPEnv)
    (resume_text job_description : String) : SimilarityResult :=
  let resume_processed := preprocess_for_similarity env resume_text
  let job_processed := preprocess_for_similarity env job_description
  if resume_processed = "" ∨ job_processed = "" then
    { overall_score := 0, method_scores := [] }
  else
    let tfidf_cosine := env.tfidfCosine resume_processed job_processed
    let keyword_match := keyword_matching_score env resume_text job_description
    let skills_match := skills_matching_score resume_text job_description
    let experience_match := experience_matching_score env resume_text job_description
    let overall_score :=
      tfidf_cosine * 0.4 + keyword_match * 0.2 + skills_match * 0.3 +
        experience_match * 0.1
    { overall_score := round2 (overall_score * 100)
      method_scores :=
        [("tfidf_cosine", round2 (tfidf_cosine * 100)),
         ("keyword_match", round2 (keyword_match * 100)),
         ("skills_match", round2 (skills_match * 100)),
         ("experience_match", round2 (experience_match * 100))] }

/-- The lower-cased skill set of a text, `set(skill.lower() for skill in
extract_skills(text))`, as built in `analyze_skill_gaps` and
`skills_matching_score`. -/
def skillSet (text : String) : Finset String :=
  ((extract_skills defaultSkillList text).map strLower).toFinset

/-- The dictionary returned by `JobMatcher.analyze_skill_gaps`. -/
structure SkillGapResult where
  matching_skills : Finset String
  missing_skills : Finset String
  additional_skills : Finset String
  skill_match_percentage : ℚ

/-- `JobMatcher.analyze_skill_gaps` (lines 186-200): set algebra on the two
lower-cased skill sets. -/
def analyze_skill_gaps (resume_text job_description : String) : SkillGapResult :=
  let resume_skills : Finset String :=
    ((extract_skills defaultSkillList resume_text).map strLower).toFinset
  let job_skills : Finset String :=
    ((extract_skills defaultSkillList job_description).map strLower).toFinset
  { matching_skills := resume_skills ∩ job_skills
    missing_skills := job_skills \ resume_skills
    additional_skills := resume_skills \ job_skills
    skill_match_percentage :=
      if job_skills = ∅ then 0
      else ((resume_skills ∩ job_skills).card : ℚ) / job_skills.card * 100 }

/-- One entry of the ranking list built by `JobMatcher.batch_resume_ranking`. -/
structure RankedResume where
  rank : Nat
  name : String
  overall_score : ℚ
  method_scores : List (String × ℚ)
deriving DecidableEq

/-- Re-number the ranks `i, i+1, ...` down a list, the model of the final
`for i, resume in enumerate(rankings): resume['rank'] = i + 1` loop. -/
def setRanks : Nat → List RankedResume → List RankedResume
  | _, [] => []
  | i, r :: rs => { r with rank := i } :: setRanks (i + 1) rs

/-- `JobMatcher.batch_resume_ranking` (lines 251-272): score every
`(name, text)` document, sort descending by overall score (Python's stable
sort), then assign ranks `1..N` in sorted order.  The ranks written before
the sort are overwritten by the final loop, so the initial numbering is
irrelevant; `setRanks 1` supplies it here too. -/
def batch_resume_ranking (env : NLPEnv) (resumes_data : List (String × String))
    (job_description : String) : List RankedResume :=
  let rankings := setRanks 1 (resumes_data.map (fun p =>
    let score_data := calculate_similarity_score env p.2 job_description
    { rank := 0
      name := p.1
      overall_score := score_data.overall_score
      method_scores := score_data.method_scores }))
  setRanks 1 (sortByDesc (fun r => r.overall_score) rankings)

/-! ### Parsed resumes (src/models/resume_parser.py) and scoring
(src/models/scoring_engine.py) -/

/-- The cleaned parsed-resume dictionary produced by
`ResumeParserModel.clean_parsed_data`, restricted to the fields the scoring
engine reads.  `sections` is the section dictionary of
`extract_resume_sections` (section name ↦ collected content). -/
structure ParsedResume where
  name : String
  email : List String
  phone : List String
  skills : List String
  education : List String
  experience_years : Nat
  companies : List String
  designations : List String
  sections : List (String × String)

/-- Key membership in the `sections` dictionary (Python `key in dict`). -/
def hasSection (r : ParsedResume) (key : String) : Bool :=
  (r.sections.map (fun p => p.1)).contains key

/-- `ScoringEngine.calculate_completeness_score` (lines 54-78): the number of
satisfied required sections out of 5, weighted 0.7, plus the number of
satisfied optional sections out of 3, weighted 0.3. -/
def calculate_completeness_score (r : ParsedResume) : ℚ :=
  let required : List Bool :=
    [decide (r.name ≠ ""),
     decide (r.email ≠ [] ∨ r.phone ≠ []),
     decide (0 < r.skills.length),
     decide (0 < r.education.length),
     decide (0 < r.experience_years ∨ 0 < r.companies.length)]
  let optional : List Bool :=
    [hasSection r "projects",
     hasSection r "certifications",
     decide (hasSection r "summary" = true ∨ hasSection r "objective" = true)]
  let required_score : ℚ :=
    ((required.countP id : ℚ) / required.length) * 0.7
  let optional_score : ℚ :=
    ((optional.countP id : ℚ) / optional.length) * 0.3
  required_score + optional_score

/-- Python `str.isalpha()` restricted to ASCII letters: non-empty and all
alphabetic. -/
def isalphaStr (s : String) : Bool :=
  !s.data.isEmpty && s.data.all (fun c =>
    (97 ≤ c.toNat && c.toNat ≤ 122) || (65 ≤ c.toNat && c.toNat ≤ 90))

/-- `ScoringEngine.calculate_content_quality_score` (lines 80-130), built on
`TextProcessor.get_text_statistics` (word count, sentence count, average
words per sentence, count of distinct lower-cased alphabetic words). -/
def calculate_content_quality_score (env : NLPEnv) (resume_text : String) : ℚ :=
  if resume_text = "" then 0
  else
    let words := env.wordTokenize resume_text
    let word_count := words.length
    let sentence_count := (env.sentTokenize resume_text).length
    let avg_words_per_sentence : ℚ :=
      if 0 < sentence_count then (word_count : ℚ) / sentence_count else 0
    let unique_words := ((words.filter isalphaStr).map strLower).dedup.length
    let word_score : ℚ :=
      if 300 ≤ word_count ∧ word_count ≤ 800 then 1
      else if (200 ≤ word_count ∧ word_count < 300) ∨
              (800 < word_count ∧ word_count ≤ 1000) then 0.8
      else if (100 ≤ word_count ∧ word_count < 200) ∨
              (1000 < word_count ∧ word_count ≤ 1200) then 0.6
      else 0.4
    let sentence_score : ℚ :=
      if 10 ≤ avg_words_per_sentence ∧ avg_words_per_sentence ≤ 25 then 1
      else if (8 ≤ avg_words_per_sentence ∧ avg_words_per_sentence < 10) ∨
              (25 < avg_words_per_sentence ∧ avg_words_per_sentence ≤ 30) then 0.8
      else 0.6
    let diversity_score : ℚ :=
      if 0 < word_count then
        let diversity_ratio : ℚ := (unique_words : ℚ) / word_count
        if 0.5 ≤ diversity_ratio then 1
        else if 0.4 ≤ diversity_ratio then 0.8
        else if 0.3 ≤ diversity_ratio then 0.6
        else 0.4
      else 0
    (word_score + sentence_score + diversity_score) / 3

/-- Does some technical skill occur (as a substring, after lower-casing) in
the given skill, mirroring `any(tech_skill.lower() in skill_lower ...)`. -/
def matchesTechnical (skill : String) : Bool :=
  TECHNICAL_SKILLS.any (fun t => containsSub (strLower t).data (strLower skill).data)

/-- Same for soft skills. -/
def matchesSoft (skill : String) : Bool :=
  SOFT_SKILLS.any (fun t => containsSub (strLower t).data (strLower skill).data)

/-- `ScoringEngine.calculate_skills_relevance_score` (lines 132-188). -/
def calculate_skills_relevance_score (r : ParsedResume) : ℚ :=
  if r.skills = [] then 0
  else
    let total_skills := r.skills.length
    let tech_skills_count := (r.skills.filter matchesTechnical).length
    let soft_skills_count :=
      (r.skills.filter (fun s => !matchesTechnical s && matchesSoft s)).length
    let quantity_score : ℚ :=
      if 8 ≤ total_skills ∧ total_skills ≤ 15 then 1
      else if (5 ≤ total_skills ∧ total_skills < 8) ∨
              (15 < total_skills ∧ total_skills ≤ 20) then 0.8
      else if (3 ≤ total_skills ∧ total_skills < 5) ∨
              (20 < total_skills ∧ total_skills ≤ 25) then 0.6
      else 0.4
    let tech_score : ℚ :=
      if 5 ≤ tech_skills_count then 1
      else if 3 ≤ tech_skills_count then 0.8
      else if 1 ≤ tech_skills_count then 0.6
      else 0.2
    let balance_score : ℚ :=
      if 0 < tech_skills_count ∧ 0 < soft_skills_count then 1
      else if 0 < tech_skills_count ∨ 0 < soft_skills_count then 0.7
      else 0.3
    (quantity_score + tech_score + balance_score) / 3

/-- `ScoringEngine.calculate_experience_score` (lines 190-231). -/
def calculate_experience_score (r : ParsedResume) : ℚ :=
  let exp_score : ℚ :=
    if 5 ≤ r.experience_years then 1
    else if 3 ≤ r.experience_years then 0.8
    else if 1 ≤ r.experience_years then 0.6
    else if 0 < r.experience_years then 0.4
    else 0
  let company_score : ℚ :=
    if 3 ≤ r.companies.length then 1
    else if 2 ≤ r.companies.length then 0.8
    else if 1 ≤ r.companies.length then 0.6
    else 0.2
  let progression_score : ℚ :=
    if 2 ≤ r.designations.length then 1
    else if 1 ≤ r.designations.length then 0.7
    else 0.3
  (exp_score + company_score + progression_score) / 3

/-- `ScoringEngine.get_score_grade` (lines 233-254). -/
def get_score_grade (score : ℚ) : String :=
  if 90 ≤ score then "A+"
  else if 85 ≤ score then "A"
  else if 80 ≤ score then "A-"
  else if 75 ≤ score then "B+"
  else if 70 ≤ score then "B"
  else if 65 ≤ score then "B-"
  else if 60 ≤ score then "C+"
  else if 55 ≤ score then "C"
  else if 50 ≤ score then "C-"
  else "D"

/-- The five category scores of `calculate_overall_score`, in the insertion
order of the Python dictionary. -/
structure CategoryScores where
  completeness : ℚ
  content_quality : ℚ
  skills_relevance : ℚ
  experience : ℚ
  job_match : ℚ

/-- `ScoringEngine.generate_feedback` (lines 256-310). -/
def generate_feedback (scores : CategoryScores) (r : ParsedResume) : List String :=
  let missing_sections : List String :=
    (if r.name = "" then ["name"] else []) ++
    (if r.email = [] ∧ r.phone = [] then ["contact information"] else []) ++
    (if r.skills = [] then ["skills section"] else []) ++
    (if r.education = [] then ["education details"] else [])
  (if scores.completeness < 0.7 ∧ missing_sections ≠ [] then
    ["📝 **Missing Information**: Add " ++ String.intercalate ", " missing_sections]
   else []) ++
  (if scores.content_quality < 0.6 then
    ["📄 **Improve Content**: Resume may be too short/long or lack detail"]
   else []) ++
  (if scores.skills_relevance < 0.6 then
    (if r.skills.length < 5 then
      ["🎯 **Add More Skills**: Include relevant technical and soft skills"]
     else if 20 < r.skills.length then
      ["🎯 **Optimize Skills**: Focus on most relevant skills (8-15 recommended)"]
     else [])
   else []) ++
  (if scores.experience < 0.5 then
    (if r.experience_years = 0 then
      ["💼 **Add Experience**: Include internships, projects, or volunteer work"]
     else
      ["💼 **Enhance Experience**: Add more details about roles and achievements"])
   else []) ++
  (if 0 < scores.job_match ∧ scores.job_match < 0.6 then
    ["🎯 **Improve Job Match**: Tailor resume to better match job requirements"]
   else []) ++
  (if 0.8 ≤ scores.completeness then
    ["✅ **Complete Profile**: Well-structured resume with all essential sections"]
   else []) ++
  (if 0.8 ≤ scores.skills_relevance then
    ["🌟 **Strong Skills Profile**: Good mix of relevant technical and soft skills"]
   else [])

/-- The result dictionary of `ScoringEngine.calculate_overall_score`. -/
structure OverallScoreResult where
  overall_score : ℚ
  category_scores : List (String × ℚ)
  grade : String
  feedback : List String

/-- The five category scores, as computed at lines 17-34 of
src/models/scoring_engine.py.  `if job_description:` is Python truthiness:
`None` and the empty string both disable the job-match category. -/
def categoryScores (env : NLPEnv) (r : ParsedResume) (resume_text : String)
    (job_description : Option String) : CategoryScores :=
  { completeness := calculate_completeness_score r
    content_quality := calculate_content_quality_score env resume_text
    skills_relevance := calculate_skills_relevance_score r
    experience := calculate_experience_score r
    job_match :=
      match job_description with
      | none => 0
      | some jd =>
        if jd = "" then 0
        else (calculate_similarity_score env resume_text jd).overall_score / 100 }

/-- The exact (unrounded) weighted overall score of
`ScoringEngine.calculate_overall_score`, on the 0-1 scale: weights
0.30/0.25/0.20/0.15/0.10 in dictionary order. -/
def overallRaw (env : NLPEnv) (r : ParsedResume) (resume_text : String)
    (job_description : Option String) : ℚ :=
  let s := categoryScores env r resume_text job_description
  s.completeness * 0.30 + s.content_quality * 0.25 + s.skills_relevance * 0.20 +
    s.experience * 0.15 + s.job_match * 0.10

/-- `ScoringEngine.calculate_overall_score` (lines 13-52): the returned
`overall_score` is the weighted percentage rounded to two decimals, while the
grade is computed from the exact unrounded percentage. -/
def calculate_overall_score (env : NLPEnv) (r : ParsedResume)
    (resume_text : String) (job_description : Option String) : OverallScoreResult :=
  let s := categoryScores env r resume_text job_description
  let overall_score := overallRaw env r resume_text job_description
  { overall_score := round2 (overall_score * 100)
    category_scores :=
      [("completeness", round2 (s.completeness * 100)),
       ("content_quality", round2 (s.content_quality * 100)),
       ("skills_relevance", round2 (s.skills_relevance * 100)),
       ("experience", round2 (s.experience * 100)),
       ("job_match", round2 (s.job_match * 100))]
    grade := get_score_grade (overall_score * 100)
    feedback := generate_feedback s r }

/-! ### Claim-side definitions and concrete instances used by witnesses -/

/-- The number of true required booleans, in the words of the specification:
non-empty name; at least one email or phone; at least one skill; at least one
education entry; experience_years > 0 or at least one company. -/
def specRequiredCount (r : ParsedResume) : ℕ :=
  (if r.name ≠ "" then 1 else 0) +
  (if r.email ≠ [] ∨ r.phone ≠ [] then 1 else 0) +
  (if r.skills ≠ [] then 1 else 0) +
  (if r.education ≠ [] then 1 else 0) +
  (if 0 < r.experience_years ∨ r.companies ≠ [] then 1 else 0)

/-- The number of true optional booleans, in the words of the specification:
has a "projects" section; has a "certifications" section; has a "summary" or
"objective" section. -/
def specOptionalCount (r : ParsedResume) : ℕ :=
  (if hasSection r "projects" then 1 else 0) +
  (if hasSection r "certifications" then 1 else 0) +
  (if hasSection r "summary" ∨ hasSection r "objective" then 1 else 0)

/-- The name, overall score and method scores of a ranking entry — everything
except the rank field that `batch_resume_ranking` renumbers. -/
def stripRank (r : RankedResume) : String × ℚ × List (String × ℚ) :=
  (r.name, r.overall_score, r.method_scores)

/-- The `(name, overall_score, method_scores)` triple `batch_resume_ranking`
computes for one input document before sorting. -/
def scoredOf (env : NLPEnv) (job_description : String) (p : String × String) :
    String × ℚ × List (String × ℚ) :=
  let sd := calculate_similarity_score env p.2 job_description
  (p.1, sd.overall_score, sd.method_scores)

/-- An environment whose external components all return trivial values; used
to instantiate hypotheses of theorems at concrete inputs. -/
def trivialEnv : NLPEnv :=
  { wordTokenize := fun _ => []
    sentTokenize := fun _ => []
    stopWords := []
    lemmatizeWord := fun w => w
    tfidfCosine := fun _ _ => 0
    tfidfFeatures := fun _ => []
    extractExperienceYears := fun _ => 0
    extractRequiredExperience := fun _ => 0 }

/-- Twenty distinct alphabetic words, a concrete stand-in for an NLTK word
tokenization. -/
def demoWords : List String :=
  ["qa", "qb", "qc", "qd", "qe", "qf", "qg", "qh", "qi", "qj",
   "qk", "ql", "qm", "qn", "qo", "qp", "qq", "qr", "qs", "qt"]

/-- A concrete environment under which the exact overall percentage of
`calculate_overall_score` lands strictly between 89.99 and 90: the word
tokenizer yields 20 distinct alphabetic words in 2 sentences and the TF-IDF
cosine value is 0.749. -/
def demoEnv : NLPEnv :=
  { wordTokenize := fun _ => demoWords
    sentTokenize := fun _ => ["x", "y"]
    stopWords := []
    lemmatizeWord := fun w => w
    tfidfCosine := fun _ _ => 0.749
    tfidfFeatures := fun _ => []
    extractExperienceYears := fun _ => 0
    extractRequiredExperience := fun _ => 0 }

/-- A concrete parsed resume: complete (all 5 required and all 3 optional
sections present), 8 skills of which 7 technical and 1 soft, 4 years of
experience, 2 companies, 2 designations. -/
def demoResume : ParsedResume :=
  { name := "Jo"
    email := ["a@b.co"]
    phone := []
    skills := ["python", "java", "sql", "html", "css", "react", "docker",
               "leadership"]
    education := ["bs"]
    experience_years := 4
    companies := ["a", "b"]
    designations := ["x", "y"]
    sections := [("projects", ""), ("certifications", ""), ("summary", "")] }

/-- A concrete resume text. -/
def demoText : String := "python dev"

/-- A concrete job description. -/
def demoJd : String := "python needed"

/-! ### Character classes used by the clean_text idempotence argument -/

/-- A character that can appear in the output of `clean_text`: a lowercase
ASCII letter or a single space. -/
def goodChar (c : Char) : Prop := (97 ≤ c.toNat ∧ c.toNat ≤ 122) ∨ c = ' '

/-- A character that can appear after the lowercase-and-replace stage:
a lowercase ASCII letter or a whitespace character. -/
def midChar (c : Char) : Prop := (97 ≤ c.toNat ∧ c.toNat ≤ 122) ∨ isSpaceB c = true

/-- Adjacent characters are not both spaces. -/
def noTwoSpaces (a b : Char) : Prop := ¬(a = ' ' ∧ b = ' ')

/-! ## Theorems -/

/-- C1: For every ParsedResume, the completeness category score equals
(number of true required booleans)/5 × 0.7 + (number of true optional
booleans)/3 × 0.3, with the required and optional booleans as listed in the
specification. -/
theorem c1_completeness_formula (r : ParsedResume) :
    calculate_completeness_score r =
      (specRequiredCount r : ℚ) / 5 * 0.7 + (specOptionalCount r : ℚ) / 3 * 0.3 := by
  unfold calculate_completeness_score specRequiredCount specOptionalCount
  simp only [List.countP_cons, List.countP_nil, id_eq, decide_eq_true_eq,
    List.length_cons, List.length_nil, List.length_pos]
  split_ifs <;> push_cast <;> norm_num

/-- C2 counterexample: when the spaCy model is unavailable,
`extract_entities` does not return a map in which every one of the six
entity kinds maps to an empty sequence — at the concrete input
"John works at Acme" it returns the empty dictionary, in which no entity
kind is present at all. -/
theorem c2_counterexample_missing_keys :
    ¬ (∀ lab ∈ entityLabels,
        (extract_entities none "John works at Acme").lookup lab = some []) := by
  decide

/-- C2 (amended): if no named-entity recognizer is available,
`extract_entities` returns, for every input text, the empty EntityMap —
a dictionary containing none of the six entity kinds (hence no entities) —
and it never raises an error. -/
theorem c2_no_model_empty_map :
    ∀ text : String, extract_entities none text = [] :=
  fun _ => rfl

/-- C3: if preprocessing either text for similarity yields the empty string,
`calculate_similarity_score` returns overall_score 0 together with an empty
method_scores mapping (the four method scores are never entered into it). -/
theorem c3_empty_preprocess_short_circuit (env : NLPEnv) (resume_text job_description : String)
    (h : preprocess_for_similarity env resume_text = "" ∨
         preprocess_for_similarity env job_description = "") :
    calculate_similarity_score env resume_text job_description =
      { overall_score := 0, method_scores := [] } := by
  unfold calculate_similarity_score
  rw [if_pos h]

/-- Witness for C3 at the concrete pair ("", "x") under `trivialEnv`. -/
theorem c3_witness :
    (preprocess_for_similarity trivialEnv "" = "" ∨
     preprocess_for_similarity trivialEnv "x" = "") ∧
    calculate_similarity_score trivialEnv "" "x" =
      { overall_score := 0, method_scores := [] } :=
  ⟨Or.inl rfl, c3_empty_preprocess_short_circuit trivialEnv "" "x" (Or.inl rfl)⟩

/-- C4: the experience_match score is 1.0 if E_j = 0; otherwise 1.0 if
E_r ≥ E_j; 0.8 if E_r ≥ 0.7·E_j; 0.6 if E_r ≥ 0.5·E_j; and E_r/E_j
otherwise. -/
theorem c4_experience_tiers (er ej : ℕ) :
    (ej = 0 → experience_matching_core er ej = 1) ∧
    (0 < ej → ej ≤ er → experience_matching_core er ej = 1) ∧
    (0 < ej → er < ej → 0.7 * (ej : ℚ) ≤ (er : ℚ) →
      experience_matching_core er ej = 0.8) ∧
    (0 < ej → (er : ℚ) < 0.7 * (ej : ℚ) → 0.5 * (ej : ℚ) ≤ (er : ℚ) →
      experience_matching_core er ej = 0.6) ∧
    (0 < ej → (er : ℚ) < 0.5 * (ej : ℚ) →
      experience_matching_core er ej = (er : ℚ) / (ej : ℚ)) := by
  have hej : (0:ℚ) ≤ (ej : ℚ) := Nat.cast_nonneg ej
  unfold experience_matching_core
  refine ⟨fun h0 => by simp [h0], fun h0 h1 => ?_, fun h0 h1 h2 => ?_,
    fun h0 h1 h2 => ?_, fun h0 h1 => ?_⟩
  · rw [if_neg (by omega), if_pos (show er ≥ ej from h1)]
  · rw [if_neg (by omega), if_neg (by omega : ¬ er ≥ ej),
      if_pos (show (er:ℚ) ≥ (ej:ℚ) * 0.7 by rw [mul_comm]; exact h2)]
  · have hlt : er < ej := by
      have h3 : (er:ℚ) < (ej:ℚ) := by nlinarith
      exact_mod_cast h3
    rw [if_neg (by omega), if_neg (by omega : ¬ er ≥ ej),
      if_neg (show ¬ (er:ℚ) ≥ (ej:ℚ) * 0.7 by rw [mul_comm]; exact not_le.mpr h1),
      if_pos (show (er:ℚ) ≥ (ej:ℚ) * 0.5 by rw [mul_comm]; exact h2)]
  · have hlt : er < ej := by
      have h3 : (er:ℚ) < (ej:ℚ) := by nlinarith
      exact_mod_cast h3
    rw [if_neg (by omega), if_neg (by omega : ¬ er ≥ ej),
      if_neg (show ¬ (er:ℚ) ≥ (ej:ℚ) * 0.7 by rw [mul_comm]; nlinarith),
      if_neg (show ¬ (er:ℚ) ≥ (ej:ℚ) * 0.5 by rw [mul_comm]; exact not_le.mpr h1)]

/-- Witness for C4: the two boundary instances named by the claim,
E_r = 0, E_j = 0 → 1.0 and E_r = 3, E_j = 5 → 0.6 (the ≥ 0.5 tier). -/
theorem c4_witness :
    experience_matching_core 0 0 = 1 ∧ experience_matching_core 3 5 = 0.6 :=
  ⟨(c4_experience_tiers 0 0).1 rfl,
   (c4_experience_tiers 3 5).2.2.2.1 (by norm_num) (by norm_num) (by norm_num)⟩

set_option maxHeartbeats 1000000 in
/-- C5: the grade tiers of `get_score_grade`, each lower bound inclusive. -/
theorem c5_grade_tiers (s : ℚ) :
    (90 ≤ s → get_score_grade s = "A+") ∧
    (85 ≤ s → s < 90 → get_score_grade s = "A") ∧
    (80 ≤ s → s < 85 → get_score_grade s = "A-") ∧
    (75 ≤ s → s < 80 → get_score_grade s = "B+") ∧
    (70 ≤ s → s < 75 → get_score_grade s = "B") ∧
    (65 ≤ s → s < 70 → get_score_grade s = "B-") ∧
    (60 ≤ s → s < 65 → get_score_grade s = "C+") ∧
    (55 ≤ s → s < 60 → get_score_grade s = "C") ∧
    (50 ≤ s → s < 55 → get_score_grade s = "C-") ∧
    (s < 50 → get_score_grade s = "D") := by
  unfold get_score_grade
  refine ⟨fun h => ?_, fun h h' => ?_, fun h h' => ?_, fun h h' => ?_,
    fun h h' => ?_, fun h h' => ?_, fun h h' => ?_, fun h h' => ?_,
    fun h h' => ?_, fun h => ?_⟩ <;>
    split_ifs <;> first | rfl | linarith

/-- Witness for C5: the four boundary evaluations named by the claim:
89.999 → A, 90.0 → A+, 49.999 → D, 50.0 → C-. -/
theorem c5_witness :
    get_score_grade 89.999 = "A" ∧ get_score_grade 90 = "A+" ∧
    get_score_grade 49.999 = "D" ∧ get_score_grade 50 = "C-" :=
  ⟨(c5_grade_tiers 89.999).2.1 (by norm_num) (by norm_num),
   (c5_grade_tiers 90).1 (by norm_num),
   (c5_grade_tiers 49.999).2.2.2.2.2.2.2.2.2 (by norm_num),
   (c5_grade_tiers 50).2.2.2.2.2.2.2.2.1 (by norm_num) (by norm_num)⟩

/-- C6: `analyze_skill_gaps` returns matching = R ∩ J, missing = J − R,
additional = R − J and percentage = |R ∩ J|/|J| × 100 (0 when J is empty);
consequently matching ∪ missing = J, matching ∪ additional = R, and the
three sets are pairwise disjoint. -/
theorem c6_skill_gap_algebra (resume_text job_description : String) :
    (analyze_skill_gaps resume_text job_description).matching_skills =
      skillSet resume_text ∩ skillSet job_description ∧
    (analyze_skill_gaps resume_text job_description).missing_skills =
      skillSet job_description \ skillSet resume_text ∧
    (analyze_skill_gaps resume_text job_description).additional_skills =
      skillSet resume_text \ skillSet job_description ∧
    (analyze_skill_gaps resume_text job_description).skill_match_percentage =
      (if skillSet job_description = ∅ then 0
       else ((skillSet resume_text ∩ skillSet job_description).card : ℚ) /
         (skillSet job_description).card * 100) ∧
    (analyze_skill_gaps resume_text job_description).matching_skills ∪
      (analyze_skill_gaps resume_text job_description).missing_skills =
        skillSet job_description ∧
    (analyze_skill_gaps resume_text job_description).matching_skills ∪
      (analyze_skill_gaps resume_text job_description).additional_skills =
        skillSet resume_text ∧
    Disjoint (analyze_skill_gaps resume_text job_description).matching_skills
      (analyze_skill_gaps resume_text job_description).missing_skills ∧
    Disjoint (analyze_skill_gaps resume_text job_description).matching_skills
      (analyze_skill_gaps resume_text job_description).additional_skills ∧
    Disjoint (analyze_skill_gaps resume_text job_description).missing_skills
      (analyze_skill_gaps resume_text job_description).additional_skills := by
  refine ⟨rfl, rfl, rfl, rfl, ?_, ?_, ?_, ?_, ?_⟩
  · show skillSet resume_text ∩ skillSet job_description ∪
      (skillSet job_description \ skillSet resume_text) = skillSet job_description
    ext x; simp only [Finset.mem_union, Finset.mem_inter, Finset.mem_sdiff]; tauto
  · show skillSet resume_text ∩ skillSet job_description ∪
      (skillSet resume_text \ skillSet job_description) = skillSet resume_text
    ext x; simp only [Finset.mem_union, Finset.mem_inter, Finset.mem_sdiff]; tauto
  · show Disjoint (skillSet resume_text ∩ skillSet job_description)
      (skillSet job_description \ skillSet resume_text)
    simp only [Finset.disjoint_left, Finset.mem_inter, Finset.mem_sdiff]; tauto
  · show Disjoint (skillSet resume_text ∩ skillSet job_description)
      (skillSet resume_text \ skillSet job_description)
    simp only [Finset.disjoint_left, Finset.mem_inter, Finset.mem_sdiff]; tauto
  · show Disjoint (skillSet job_description \ skillSet resume_text)
      (skillSet resume_text \ skillSet job_description)
    simp only [Finset.disjoint_left, Finset.mem_sdiff]; tauto

/-- C8: `extract_skills` returns a sequence with no duplicates, each element
drawn verbatim from the candidate skill list. -/
theorem c8_extract_skills_nodup_subset (S : List String) (T : String) :
    (extract_skills S T).Nodup ∧ extract_skills S T ⊆ S := by
  constructor
  · exact List.nodup_dedup _
  · intro x hx
    exact List.mem_of_mem_filter (List.mem_dedup.mp hx)

/-- Witness for C8 at a concrete skill list and text. -/
theorem c8_witness :
    (extract_skills ["python"] "i use python").Nodup ∧
    extract_skills ["python"] "i use python" ⊆ ["python"] :=
  c8_extract_skills_nodup_subset ["python"] "i use python"

unseal Rat.add Rat.mul Rat.sub Rat.inv Rat.ofScientific in
/-- C10: `calculate_overall_score` computes the grade from the exact
unrounded weighted percentage while the returned overall_score is that
percentage rounded to two decimals; at the concrete input
(`demoEnv`, `demoResume`, `demoText`, `demoJd`) the exact percentage is
89.996 < 90, yet the result reports overall_score = 90.0 with grade "A". -/
theorem c10_rounded_score_grade_mismatch :
    (∀ (env : NLPEnv) (r : ParsedResume) (text : String) (job : Option String),
      (calculate_overall_score env r text job).overall_score =
        round2 (overallRaw env r text job * 100) ∧
      (calculate_overall_score env r text job).grade =
        get_score_grade (overallRaw env r text job * 100)) ∧
    overallRaw demoEnv demoResume demoText (some demoJd) * 100 < 90 ∧
    (calculate_overall_score demoEnv demoResume demoText (some demoJd)).overall_score
      = 90 ∧
    (calculate_overall_score demoEnv demoResume demoText (some demoJd)).grade
      = "A" := by
  refine ⟨fun env r text job => ⟨rfl, rfl⟩, by decide, by decide, by decide⟩

/-! ### Helper lemmas for the stable descending sort and rank assignment -/

/-- Inserting an element permutes to consing it. -/
theorem perm_insertByDesc (key : α → ℚ) (x : α) (l : List α) :
    (insertByDesc key x l).Perm (x :: l) := by
  induction l with
  | nil => exact List.Perm.refl _
  | cons y ys ih =>
    unfold insertByDesc
    split_ifs with h
    · exact (ih.cons y).trans (List.Perm.swap x y ys)
    · exact List.Perm.refl _

/-- The sort is a permutation of its input. -/
theorem perm_sortByDesc (key : α → ℚ) (l : List α) :
    (sortByDesc key l).Perm l := by
  induction l with
  | nil => exact List.Perm.refl _
  | cons x xs ih =>
    exact (perm_insertByDesc key x (sortByDesc key xs)).trans (ih.cons x)

/-- Inserting into a descending-sorted list keeps it sorted. -/
theorem sorted_insertByDesc (key : α → ℚ) (x : α) (l : List α)
    (h : l.Sorted (fun a b => key b ≤ key a)) :
    (insertByDesc key x l).Sorted (fun a b => key b ≤ key a) := by
  induction l with
  | nil => simp [insertByDesc]
  | cons y ys ih =>
    rw [List.sorted_cons] at h
    unfold insertByDesc
    split_ifs with hk
    · rw [List.sorted_cons]
      refine ⟨fun b hb => ?_, ih h.2⟩
      rcases List.mem_cons.mp ((perm_insertByDesc key x ys).mem_iff.mp hb) with hb | hb
      · subst hb; exact le_of_lt hk
      · exact h.1 b hb
    · rw [List.sorted_cons]
      refine ⟨fun b hb => ?_, List.sorted_cons.mpr h⟩
      rcases List.mem_cons.mp hb with hb | hb
      · subst hb; exact not_lt.mp hk
      · exact (h.1 b hb).trans (not_lt.mp hk)

/-- The sort output is sorted descending by key. -/
theorem sorted_sortByDesc (key : α → ℚ) (l : List α) :
    (sortByDesc key l).Sorted (fun a b => key b ≤ key a) := by
  induction l with
  | nil => exact List.sorted_nil
  | cons x xs ih => exact sorted_insertByDesc key x (sortByDesc key xs) ih

/-- Filtering one key value through an insertion: the inserted element ends
up behind every earlier element of the same key. -/
theorem filter_insertByDesc (key : α → ℚ) (s : ℚ) (x : α) (l : List α) :
    (insertByDesc key x l).filter (fun a => decide (key a = s)) =
      if key x = s then x :: l.filter (fun a => decide (key a = s))
      else l.filter (fun a => decide (key a = s)) := by
  induction l with
  | nil => by_cases hx : key x = s <;> simp [insertByDesc, List.filter_cons, hx]
  | cons y ys ih =>
    show (if key x < key y then y :: insertByDesc key x ys
          else x :: y :: ys).filter _ = _
    by_cases hk : key x < key y
    · rw [if_pos hk, List.filter_cons, ih]
      by_cases hx : key x = s
      · have hy : ¬ key y = s := by
          intro hy; rw [hx, hy] at hk; exact lt_irrefl s hk
        simp [hx, hy, List.filter_cons]
      · simp [hx, List.filter_cons]
    · rw [if_neg hk]
      by_cases hx : key x = s <;> simp [hx, List.filter_cons]

/-- Stability: restricted to any single key value, the sort preserves the
input order. -/
theorem filter_sortByDesc (key : α → ℚ) (s : ℚ) (l : List α) :
    (sortByDesc key l).filter (fun a => decide (key a = s)) =
      l.filter (fun a => decide (key a = s)) := by
  induction l with
  | nil => rfl
  | cons x xs ih =>
    show (insertByDesc key x (sortByDesc key xs)).filter _ = _
    rw [filter_insertByDesc key s x (sortByDesc key xs), ih]
    by_cases hx : key x = s <;> simp [List.filter_cons, hx]

/-- Renumbering assigns the consecutive ranks `i, i+1, ...`. -/
theorem setRanks_map_rank (i : Nat) (l : List RankedResume) :
    (setRanks i l).map (fun r => r.rank) = List.range' i l.length := by
  induction l generalizing i with
  | nil => rfl
  | cons r rs ih => simp [setRanks, List.range', ih]

/-- Renumbering does not change names, scores or method scores. -/
theorem setRanks_map_stripRank (i : Nat) (l : List RankedResume) :
    (setRanks i l).map stripRank = l.map stripRank := by
  induction l generalizing i with
  | nil => rfl
  | cons r rs ih => simp [setRanks, ih]; rfl

/-- Renumbering does not change the scores. -/
theorem setRanks_map_score (i : Nat) (l : List RankedResume) :
    (setRanks i l).map (fun r => r.overall_score) =
      l.map (fun r => r.overall_score) := by
  induction l generalizing i with
  | nil => rfl
  | cons r rs ih => simp [setRanks, ih]

/-- Renumbering commutes with filtering on a score value, up to the rank
field. -/
theorem setRanks_filter_stripRank (s : ℚ) (i : Nat) (l : List RankedResume) :
    ((setRanks i l).filter (fun r => decide (r.overall_score = s))).map stripRank =
      (l.filter (fun r => decide (r.overall_score = s))).map stripRank := by
  induction l generalizing i with
  | nil => rfl
  | cons r rs ih =>
    show (({r with rank := i} :: setRanks (i+1) rs).filter _).map _ = _
    rw [List.filter_cons, List.filter_cons]
    by_cases hs : r.overall_score = s
    · rw [if_pos (decide_eq_true hs), if_pos (decide_eq_true hs),
        List.map_cons, List.map_cons, ih]
      rfl
    · rw [if_neg (fun h => hs (of_decide_eq_true h)),
        if_neg (fun h => hs (of_decide_eq_true h)), ih]

/-- Renumbering preserves length. -/
theorem setRanks_length (i : Nat) (l : List RankedResume) :
    (setRanks i l).length = l.length := by
  induction l generalizing i with
  | nil => rfl
  | cons r rs ih => simp [setRanks, ih]

/-- All facts about the sort-and-renumber pipeline of
`batch_resume_ranking`, for an arbitrary list of pre-sort entries. -/
theorem rankPipeline_facts (l : List RankedResume) :
    ((setRanks 1 (sortByDesc (fun r => r.overall_score)
        (setRanks 1 l))).map stripRank).Perm (l.map stripRank) ∧
    (setRanks 1 (sortByDesc (fun r => r.overall_score)
        (setRanks 1 l))).Sorted (fun a b => b.overall_score ≤ a.overall_score) ∧
    (∀ s : ℚ,
      ((setRanks 1 (sortByDesc (fun r => r.overall_score)
          (setRanks 1 l))).filter
            (fun r => decide (r.overall_score = s))).map stripRank =
        (l.filter (fun r => decide (r.overall_score = s))).map stripRank) ∧
    (setRanks 1 (sortByDesc (fun r => r.overall_score)
        (setRanks 1 l))).map (fun r => r.rank) = List.range' 1 l.length := by
  refine ⟨?_, ?_, ?_, ?_⟩
  · rw [setRanks_map_stripRank]
    exact ((perm_sortByDesc _ _).map stripRank).trans
      (by rw [setRanks_map_stripRank])
  · have hs := sorted_sortByDesc (fun r => r.overall_score) (setRanks 1 l)
    have h2 : ((sortByDesc (fun r => r.overall_score) (setRanks 1 l)).map
        (fun r => r.overall_score)).Pairwise (fun a b => b ≤ a) := by
      rw [List.pairwise_map]
      exact hs
    have h3 : ((setRanks 1 (sortByDesc (fun r => r.overall_score)
        (setRanks 1 l))).map (fun r => r.overall_score)).Pairwise
          (fun a b => b ≤ a) := by
      rw [setRanks_map_score]
      exact h2
    exact List.pairwise_map.mp h3
  · intro s
    rw [setRanks_filter_stripRank, filter_sortByDesc, setRanks_filter_stripRank]
  · rw [setRanks_map_rank, (perm_sortByDesc _ _).length_eq, setRanks_length]

/-- C7: `batch_resume_ranking` returns the per-document results sorted
descending by overall_score with a stable sort — restricted to any single
score value the output preserves the input order, so documents with equal
scores keep their original relative order — and assigns the ranks `1..N`
densely in sorted order with no shared ranks; the empty input yields the
empty list. -/
theorem c7_batch_ranking_stable (env : NLPEnv) (rs : List (String × String))
    (jd : String) :
    ((batch_resume_ranking env rs jd).map stripRank).Perm
      (rs.map (scoredOf env jd)) ∧
    (batch_resume_ranking env rs jd).Sorted
      (fun a b => b.overall_score ≤ a.overall_score) ∧
    (∀ s : ℚ,
      ((batch_resume_ranking env rs jd).filter
          (fun r => decide (r.overall_score = s))).map stripRank =
        (rs.map (scoredOf env jd)).filter (fun t => decide (t.2.1 = s))) ∧
    (batch_resume_ranking env rs jd).map (fun r => r.rank) =
      List.range' 1 rs.length ∧
    batch_resume_ranking env ([] : List (String × String)) jd = [] := by
  have hb : batch_resume_ranking env rs jd =
      setRanks 1 (sortByDesc (fun r => r.overall_score)
        (setRanks 1 (rs.map (fun p =>
          ({ rank := 0, name := p.1,
             overall_score := (calculate_similarity_score env p.2 jd).overall_score,
             method_scores :=
               (calculate_similarity_score env p.2 jd).method_scores } :
            RankedResume))))) := rfl
  obtain ⟨h1, h2, h3, h4⟩ := rankPipeline_facts (rs.map (fun p =>
    ({ rank := 0, name := p.1,
       overall_score := (calculate_similarity_score env p.2 jd).overall_score,
       method_scores := (calculate_similarity_score env p.2 jd).method_scores } :
      RankedResume)))
  refine ⟨?_, ?_, ?_, ?_, rfl⟩
  · rw [hb]
    rw [List.map_map] at h1
    exact h1
  · rw [hb]
    exact h2
  · intro s
    rw [hb, h3 s, List.filter_map, List.filter_map, List.map_map]
    rfl
  · rw [hb, h4, List.length_map]

/-- Code point of the lower-cased image of an ASCII uppercase letter. -/
theorem toNat_ofNat_letters (n : Nat) (h1 : 65 ≤ n) (h2 : n ≤ 90) :
    (Char.ofNat (n + 32)).toNat = n + 32 := by
  interval_cases n <;> decide

/-- After lower-casing and replacement every character is a lowercase
letter or whitespace. -/
theorem midChar_repl_lower (c : Char) : midChar (replStep (lowerChar c)) := by
  unfold lowerChar
  by_cases h : 65 ≤ c.toNat ∧ c.toNat ≤ 90
  · rw [if_pos h]
    have ht := toNat_ofNat_letters c.toNat h.1 h.2
    unfold replStep
    rw [if_pos (Or.inl ⟨by omega, by omega⟩)]
    exact Or.inl ⟨by omega, by omega⟩
  · rw [if_neg h]
    unfold replStep
    by_cases h2 : (97 ≤ c.toNat ∧ c.toNat ≤ 122) ∨ (65 ≤ c.toNat ∧ c.toNat ≤ 90) ∨
        isSpaceB c = true
    · rw [if_pos h2]
      rcases h2 with h2 | h2 | h2
      · exact Or.inl h2
      · exact absurd h2 h
      · exact Or.inr h2
    · rw [if_neg h2]
      exact Or.inr (by decide)

/-- Lower-casing fixes every output character of `clean_text`. -/
theorem goodChar_lowerChar (c : Char) (h : goodChar c) : lowerChar c = c := by
  rcases h with h | h
  · unfold lowerChar
    rw [if_neg (by omega)]
  · subst h; decide

/-- Replacement fixes every output character of `clean_text`. -/
theorem goodChar_replStep (c : Char) (h : goodChar c) : replStep c = c := by
  rcases h with h | h
  · unfold replStep
    rw [if_pos (Or.inl h)]
  · subst h; decide

/-- The only whitespace output character is the space itself. -/
theorem goodChar_space_eq (c : Char) (h : goodChar c) (hs : isSpaceB c = true) :
    c = ' ' := by
  rcases h with h | h
  · exfalso
    simp only [isSpaceB, Bool.or_eq_true, beq_iff_eq] at hs
    omega
  · exact h

/-- An output character other than space is not whitespace. -/
theorem goodChar_ne_space_not (c : Char) (h : goodChar c) (hne : c ≠ ' ') :
    isSpaceB c = false := by
  cases hsp : isSpaceB c
  · rfl
  · exact absurd (goodChar_space_eq c h hsp) hne

/-- Collapsing whitespace runs leaves only letters and spaces. -/
theorem collapseAux_goodChars :
    ∀ (l : List Char) (flag : Bool), (∀ c ∈ l, midChar c) →
      ∀ c ∈ collapseAux flag l, goodChar c := by
  intro l
  induction l with
  | nil => intro flag _ c hc; cases hc
  | cons a cs ih =>
    intro flag hmid c hc
    have hmid' : ∀ c ∈ cs, midChar c := fun d hd => hmid d (List.mem_cons_of_mem a hd)
    cases hsp : isSpaceB a with
    | true =>
      cases flag with
      | true =>
        simp only [collapseAux, hsp, if_true] at hc
        exact ih true hmid' c hc
      | false =>
        simp only [collapseAux, hsp, if_true, Bool.false_eq_true, if_false] at hc
        rcases List.mem_cons.mp hc with hc | hc
        · subst hc; exact Or.inr rfl
        · exact ih true hmid' c hc
    | false =>
      simp only [collapseAux, hsp, Bool.false_eq_true, if_false] at hc
      rcases List.mem_cons.mp hc with hc | hc
      · rw [hc]
        rcases hmid a (List.mem_cons_self a cs) with h | h
        · exact Or.inl h
        · rw [h] at hsp; cases hsp
      · exact ih false hmid' c hc

/-- Inside a run the next emitted character is never a space. -/
theorem collapseAux_true_head (l : List Char) :
    (collapseAux true l).head? ≠ some ' ' := by
  induction l with
  | nil => intro h; cases h
  | cons a cs ih =>
    cases hsp : isSpaceB a with
    | true =>
      simp only [collapseAux, hsp, if_true]
      exact ih
    | false =>
      simp only [collapseAux, hsp, Bool.false_eq_true, if_false, List.head?_cons]
      intro h
      have ha : a = ' ' := by injection h
      subst ha
      cases hsp

/-- Collapsing leaves no two adjacent spaces. -/
theorem collapseAux_chain (l : List Char) (flag : Bool) :
    List.Chain' noTwoSpaces (collapseAux flag l) := by
  induction l generalizing flag with
  | nil => exact List.chain'_nil
  | cons a cs ih =>
    cases hsp : isSpaceB a with
    | true =>
      cases flag with
      | true =>
        simp only [collapseAux, hsp, if_true]
        exact ih true
      | false =>
        simp only [collapseAux, hsp, if_true, Bool.false_eq_true, if_false]
        rw [List.chain'_cons']
        refine ⟨fun y hy => ?_, ih true⟩
        intro hcon
        exact collapseAux_true_head cs (by rw [hy, hcon.2])
    | false =>
      simp only [collapseAux, hsp, Bool.false_eq_true, if_false]
      rw [List.chain'_cons']
      refine ⟨fun y hy => ?_, ih false⟩
      intro hcon
      rw [hcon.1] at hsp
      cases hsp

/-- The run flag is irrelevant when the list does not start with
whitespace. -/
theorem collapseAux_true_eq_false (l : List Char)
    (h : ∀ c, l.head? = some c → isSpaceB c = false) :
    collapseAux true l = collapseAux false l := by
  cases l with
  | nil => rfl
  | cons a cs =>
    have hf : isSpaceB a = false := h a rfl
    simp only [collapseAux, hf, Bool.false_eq_true, if_false]

/-- Collapsing is the identity on space-separated letter lists. -/
theorem collapseAux_id (l : List Char) (hgood : ∀ c ∈ l, goodChar c)
    (hchain : List.Chain' noTwoSpaces l) : collapseAux false l = l := by
  induction l with
  | nil => rfl
  | cons a cs ih =>
    have hgood' : ∀ c ∈ cs, goodChar c := fun d hd => hgood d (List.mem_cons_of_mem a hd)
    have hchain' : List.Chain' noTwoSpaces cs := hchain.tail
    cases hsp : isSpaceB a with
    | true =>
      have ha : a = ' ' := goodChar_space_eq a (hgood a (List.mem_cons_self a cs)) hsp
      simp only [collapseAux, hsp, if_true, Bool.false_eq_true, if_false]
      rw [collapseAux_true_eq_false cs ?_, ih hgood' hchain', ha]
      intro c hc
      have hrel := (List.chain'_cons'.mp hchain).1 c hc
      refine goodChar_ne_space_not c (hgood' c ?_) (fun hc' => hrel ⟨ha, hc'⟩)
      cases cs with
      | nil => cases hc
      | cons d ds =>
        have hcd : d = c := by injection hc
        rw [← hcd]
        exact List.mem_cons_self d ds
    | false =>
      simp only [collapseAux, hsp, Bool.false_eq_true, if_false]
      rw [ih hgood' hchain']

/-- The head surviving a `dropWhile` fails the predicate. -/
theorem dropWhile_head_false (p : Char → Bool) (l : List Char) :
    ∀ c, (l.dropWhile p).head? = some c → p c = false := by
  induction l with
  | nil => intro c h; cases h
  | cons a cs ih =>
    intro c h
    cases hp : p a with
    | true =>
      rw [List.dropWhile_cons, if_pos hp] at h
      exact ih c h
    | false =>
      rw [List.dropWhile_cons, if_neg (by rw [hp]; exact Bool.false_ne_true),
        List.head?_cons] at h
      have hac : a = c := by injection h
      rw [← hac]
      exact hp

/-- A non-empty suffix has the same last element. -/
theorem suffix_getLast {x y : List Char} (h : x <:+ y) (hne : x ≠ []) :
    x.getLast? = y.getLast? := by
  obtain ⟨t, rfl⟩ := h
  rw [List.getLast?_append]
  cases hx : x.getLast? with
  | none => exact absurd (List.getLast?_eq_none_iff.mp hx) hne
  | some a => rfl

/-- Stripping keeps only characters of the input. -/
theorem stripL_good (l : List Char) (hgood : ∀ c ∈ l, goodChar c) :
    ∀ c ∈ stripL l, goodChar c := by
  intro c hc
  apply hgood
  unfold stripL at hc
  rw [List.mem_reverse] at hc
  have hc2 := (List.dropWhile_sublist isSpaceB).mem hc
  rw [List.mem_reverse] at hc2
  exact (List.dropWhile_sublist isSpaceB).mem hc2

/-- `noTwoSpaces` is symmetric. -/
theorem chain_flip_noTwoSpaces {l : List Char} (h : List.Chain' noTwoSpaces l) :
    List.Chain' (flip noTwoSpaces) l :=
  h.imp (fun _ _ hab hcon => hab ⟨hcon.2, hcon.1⟩)

/-- Stripping preserves the no-two-adjacent-spaces invariant. -/
theorem stripL_chain (l : List Char) (hch : List.Chain' noTwoSpaces l) :
    List.Chain' noTwoSpaces (stripL l) := by
  unfold stripL
  have h1 : List.Chain' noTwoSpaces (l.dropWhile isSpaceB) :=
    hch.suffix (List.dropWhile_suffix isSpaceB)
  have h2 : List.Chain' noTwoSpaces (l.dropWhile isSpaceB).reverse :=
    List.chain'_reverse.mpr (chain_flip_noTwoSpaces h1)
  have h3 : List.Chain' noTwoSpaces
      ((l.dropWhile isSpaceB).reverse.dropWhile isSpaceB) :=
    h2.suffix (List.dropWhile_suffix isSpaceB)
  exact List.chain'_reverse.mpr (chain_flip_noTwoSpaces h3)

/-- A stripped list neither starts nor ends with a space. -/
theorem stripL_ends (l : List Char) :
    (stripL l).head? ≠ some ' ' ∧ (stripL l).getLast? ≠ some ' ' := by
  constructor
  · intro h
    unfold stripL at h
    rw [List.head?_reverse] at h
    have hne : (l.dropWhile isSpaceB).reverse.dropWhile isSpaceB ≠ [] := by
      intro he; rw [he] at h; cases h
    rw [suffix_getLast (List.dropWhile_suffix isSpaceB) hne,
      List.getLast?_reverse] at h
    have := dropWhile_head_false isSpaceB l ' ' h
    simp [isSpaceB] at this
  · intro h
    unfold stripL at h
    rw [List.getLast?_reverse] at h
    have := dropWhile_head_false isSpaceB (l.dropWhile isSpaceB).reverse ' ' h
    simp [isSpaceB] at this

/-- Stripping is the identity when the ends are not spaces. -/
theorem stripL_id (l : List Char) (hhead : l.head? ≠ some ' ')
    (hlast : l.getLast? ≠ some ' ') (hgood : ∀ c ∈ l, goodChar c) :
    stripL l = l := by
  have h1 : l.dropWhile isSpaceB = l := by
    cases l with
    | nil => rfl
    | cons a cs =>
      have ha : a ≠ ' ' := fun h => hhead (by rw [h]; rfl)
      have hs : isSpaceB a = false :=
        goodChar_ne_space_not a (hgood a (List.mem_cons_self a cs)) ha
      rw [List.dropWhile_cons, if_neg (by rw [hs]; exact Bool.false_ne_true)]
  unfold stripL
  rw [h1]
  have h2 : l.reverse.dropWhile isSpaceB = l.reverse := by
    cases hr : l.reverse with
    | nil => rfl
    | cons a cs =>
      have hla : l.getLast? = some a := by
        rw [← List.head?_reverse, hr, List.head?_cons]
      have ha : a ≠ ' ' := fun h => hlast (by rw [hla, h])
      have hmem : a ∈ l := by
        rw [← List.mem_reverse, hr]; exact List.mem_cons_self a cs
      have hs : isSpaceB a = false := goodChar_ne_space_not a (hgood a hmem) ha
      rw [List.dropWhile_cons, if_neg (by rw [hs]; exact Bool.false_ne_true)]
  rw [h2, List.reverse_reverse]

/-- The output of the `clean_text` pipeline is normalized: only lowercase
letters and single separating spaces, no space at either end. -/
theorem cleanL_normalized (l : List Char) :
    (∀ c ∈ cleanL l, goodChar c) ∧ List.Chain' noTwoSpaces (cleanL l) ∧
    (cleanL l).head? ≠ some ' ' ∧ (cleanL l).getLast? ≠ some ' ' := by
  have hmid : ∀ c ∈ (l.map fun c => replStep (lowerChar c)), midChar c := by
    intro c hc
    rcases List.mem_map.mp hc with ⟨d, _, rfl⟩
    exact midChar_repl_lower d
  exact ⟨stripL_good _ (collapseAux_goodChars _ false hmid),
    stripL_chain _ (collapseAux_chain _ false),
    (stripL_ends _).1, (stripL_ends _).2⟩

/-- The `clean_text` pipeline is the identity on normalized lists. -/
theorem cleanL_id (l : List Char) (hgood : ∀ c ∈ l, goodChar c)
    (hchain : List.Chain' noTwoSpaces l) (hhead : l.head? ≠ some ' ')
    (hlast : l.getLast? ≠ some ' ') : cleanL l = l := by
  unfold cleanL
  have hmap : l.map (fun c => replStep (lowerChar c)) = l := by
    have := List.map_congr_left (l := l) (f := fun c => replStep (lowerChar c))
      (g := id) (fun c hc => by
        simp only [goodChar_lowerChar c (hgood c hc),
          goodChar_replStep c (hgood c hc), id])
    rw [this, List.map_id]
  rw [hmap, collapseAux_id l hgood hchain, stripL_id l hhead hlast hgood]

/-- C9: `clean_text` is idempotent — cleaning an already cleaned text
changes nothing — and the empty input yields the empty string without
failing. -/
theorem c9_clean_text_idempotent :
    (∀ t : String, clean_text (clean_text t) = clean_text t) ∧
    clean_text "" = "" := by
  refine ⟨fun t => ?_, rfl⟩
  by_cases ht : t = ""
  · rw [ht]; rfl
  · have h1 : clean_text t = ⟨cleanL t.data⟩ := by
      rw [clean_text, if_neg ht]
    rw [h1]
    by_cases h0 : (⟨cleanL t.data⟩ : String) = ""
    · rw [h0]; rfl
    · rw [clean_text, if_neg h0]
      have hnorm := cleanL_normalized t.data
      show (⟨cleanL (cleanL t.data)⟩ : String) = ⟨cleanL t.data⟩
      congr 1
      exact cleanL_id _ hnorm.1 hnorm.2.1 hnorm.2.2.1 hnorm.2.2.2

end ResumeScanner
